import Mathlib

/-!
Verification of the parsley-csv SQL-dump-to-CSV converter.

This file gives a shallow embedding, in Lean 4, of the core text-extraction
and date-filtering code of the repository (`src/parser.rs`,
`src/date_filter.rs`, and the per-table driver loop of `src/main.rs`), and
proves or refutes the frozen claims about it.

Modelling conventions:
* Rust `String`/`&str` values are modelled as Lean `String` or `List Char`
  (the code iterates over `chars()`, so the char-list view is the faithful
  one; `String.data` mediates between the two).
* Rust functions that can panic are modelled as `Option`-returning
  functions, with `none` standing for a panic.
* Calls into the `regex` crate are external to the repository.  Functions
  whose behaviour the claims depend on only through the *list of matches*
  (`parse_sql_file`, `extract_insert_values`) are parameterised by that
  match list.  The one regex whose exact matching behaviour a claim depends
  on (`handle_replace_function`, a fixed lazy pattern) is modelled directly
  by its leftmost-first, shortest-capture semantics.
* Calls into `chrono` are modelled by a direct implementation of the
  documented parsing algorithm (format items parsed left to right, numeric
  fields with fixed maximal widths, trailing input rejected) and of the
  proleptic-Gregorian epoch conversion used by `DateTime::from_timestamp`.
-/

namespace ParsleyCsv

/-! ## Basic character and char-list utilities -/

/-- The single-quote character `'`. -/
def sq : Char := Char.ofNat 39

/-- The double-quote character. -/
def dq : Char := Char.ofNat 34

/-- The backslash character. -/
def bsl : Char := Char.ofNat 92

/-- The newline character. -/
def nl : Char := Char.ofNat 10

/-- The carriage-return character. -/
def cr : Char := Char.ofNat 13

/-- Models Rust `char::is_whitespace` (the Unicode `White_Space` property). -/
def isWs (c : Char) : Bool :=
  let n := c.toNat
  (9 ≤ n ∧ n ≤ 13) ∨ n = 32 ∨ n = 133 ∨ n = 160 ∨ n = 5760 ∨
  (8192 ≤ n ∧ n ≤ 8202) ∨ n = 8232 ∨ n = 8233 ∨ n = 8239 ∨ n = 8287 ∨ n = 12288

/-- Models Rust `str::trim`: drop whitespace from both ends. -/
def trimL (cs : List Char) : List Char :=
  ((cs.dropWhile isWs).reverse.dropWhile isWs).reverse

/-- Models Rust `str::split(sep)`: split at every occurrence of `sep`,
keeping empty segments (the result is always non-empty). -/
def splitCh (sep : Char) : List Char → List (List Char)
  | [] => [[]]
  | c :: rest =>
    if c = sep then
      [] :: splitCh sep rest
    else
      match splitCh sep rest with
      | [] => [[c]]
      | s :: ss => (c :: s) :: ss

/-- Strip one trailing carriage return (used by the `lines` model for
`\r\n` line endings). -/
def stripTrailingCR (cs : List Char) : List Char :=
  match cs.getLast? with
  | some c => if c = cr then cs.dropLast else cs
  | none => cs

/-- Models Rust `str::lines`: split at `\n` (stripping a `\r` that
immediately precedes it); a trailing line terminator does not produce a
final empty line. -/
def linesGo (acc : List Char) : List Char → List (List Char)
  | [] => if acc = [] then [] else [acc]
  | c :: rest =>
    if c = nl then stripTrailingCR acc :: linesGo [] rest
    else linesGo (acc ++ [c]) rest

/-- See `linesGo`. -/
def linesOf (cs : List Char) : List (List Char) :=
  linesGo [] cs

/-- First whitespace-delimited word of a char list, as an `Option`
(models `str::split_whitespace().next()`; `none` when there is none). -/
def firstWord (cs : List Char) : Option (List Char) :=
  let w := (cs.dropWhile isWs).takeWhile (fun c => !isWs c)
  if w = [] then none else some w

/-- Models Rust `char::is_alphanumeric || c == '_'` as used for column-name
validation.  (Unicode alphanumerics outside ASCII are not modelled; no claim
depends on them.) -/
def isColChar (c : Char) : Bool :=
  c.isAlphanum ∨ c = Char.ofNat 95

/-- Option-valued map over a list: `none` as soon as `f` is `none`
(models a Rust `map` in which the body may panic). -/
def optMap {α β : Type} (f : α → Option β) : List α → Option (List β)
  | [] => some []
  | a :: rest => (f a).bind (fun b => (optMap f rest).map (fun bs => b :: bs))

/-- First `some` produced by `f` along a list, or `none`
(a tagged-result short-circuit chain). -/
def firstSome {α β : Type} (f : α → Option β) : List α → Option β
  | [] => none
  | a :: rest =>
    match f a with
    | some b => some b
    | none => firstSome f rest

/-- Split a char list at the first occurrence of (non-empty) `needle`,
returning the part strictly before it and the part strictly after it. -/
def splitAtSub (needle : List Char) : List Char → Option (List Char × List Char)
  | [] => if needle.isPrefixOf [] then some ([], []) else none
  | c :: rest =>
    if needle.isPrefixOf (c :: rest) then some ([], (c :: rest).drop needle.length)
    else (splitAtSub needle rest).map (fun p => (c :: p.1, p.2))

/-- Whether `needle` occurs as a contiguous substring of `hay`
(models Rust `str::contains`). -/
def containsSub (needle hay : List Char) : Bool :=
  (splitAtSub needle hay).isSome

/-- Models Rust `str::replace(needle, repl)`: replace every occurrence,
non-overlapping, left to right.  The fuel argument (instantiated with the
length of the haystack) only makes the recursion structural. -/
def replaceSubGo (needle repl : List Char) : Nat → List Char → List Char
  | _, [] => []
  | 0, s => s
  | fuel + 1, c :: rest =>
    if needle ≠ [] ∧ needle.isPrefixOf (c :: rest) then
      repl ++ replaceSubGo needle repl fuel ((c :: rest).drop needle.length)
    else
      c :: replaceSubGo needle repl fuel rest

/-- See `replaceSubGo`. -/
def replaceSub (needle repl cs : List Char) : List Char :=
  replaceSubGo needle repl cs.length cs

/-! ## `src/parser.rs`: schema extraction -/

/-- `Table` from `src/types.rs`: a table name together with its ordered
column-name list. -/
structure Table where
  name : String
  columns : List String
deriving DecidableEq, Repr

/-- The literal `FOREIGN KEY`. -/
def fkLit : List Char := "FOREIGN KEY".data

/-- The literal `PRIMARY KEY`. -/
def pkLit : List Char := "PRIMARY KEY".data

/-- `parse_table_columns` (`src/parser.rs:37`): join the trimmed lines of a
CREATE TABLE body with spaces, split on commas, and keep the first word of
every non-empty segment that is not a FOREIGN/PRIMARY KEY clause and whose
first word is made of alphanumerics and underscores only. -/
def parse_table_columns (columns_text : String) : List String :=
  let joined := List.intercalate [' '] ((linesOf columns_text.data).map trimL)
  (splitCh ',' joined).filterMap (fun part0 =>
    let part := trimL part0
    if part ≠ [] ∧ ¬ fkLit.isPrefixOf part ∧ ¬ pkLit.isPrefixOf part then
      match firstWord part with
      | some col_name =>
        if col_name ≠ [] ∧ col_name.all isColChar then some (String.mk col_name)
        else none
      | none => none
    else none)

/-- `parse_sql_file` (`src/parser.rs:9`), table-building loop.  The CREATE
TABLE regex is an external component (the `regex` crate); the function is
therefore parameterised by the list of its matches, each given as the two
capture groups `(table name, columns body)`.  For every match the column
body is parsed, and a `Table` is emitted only when the resulting column
list is non-empty. -/
def parse_sql_file (create_table_matches : List (String × String)) : List Table :=
  create_table_matches.filterMap (fun m =>
    let columns := parse_table_columns m.2
    if columns ≠ [] then some ⟨m.1, columns⟩ else none)

/-! ## `src/parser.rs`: value tokenizer and normalizer -/

/-- The scanning loop of `parse_values` (`src/parser.rs:126-163`): a single
left-to-right scan with an in-quotes flag, the active quote character, the
accumulated current value, and the emitted values.  Outside quotes a comma
emits the trimmed current value and a quote character opens quoted mode;
inside quotes a doubled occurrence of the active quote character is copied
without closing, a single occurrence closes, everything else is copied.
At the end of input a non-empty current value is emitted (trimmed). -/
def pv_go : List Char → Bool → Char → List Char → List (List Char) → List (List Char)
  | [], _, _, current_value, values =>
    if current_value ≠ [] then values ++ [trimL current_value] else values
  | c :: rest, false, quote_char, current_value, values =>
    if c = sq ∨ c = dq then
      pv_go rest true c (current_value ++ [c]) values
    else if c = ',' then
      pv_go rest false quote_char [] (values ++ [trimL current_value])
    else
      pv_go rest false quote_char (current_value ++ [c]) values
  | [c], true, quote_char, current_value, values =>
    if c = quote_char then
      pv_go [] false ' ' (current_value ++ [c]) values
    else
      pv_go [] true quote_char (current_value ++ [c]) values
  | c :: c2 :: rest2, true, quote_char, current_value, values =>
    if c = quote_char then
      if c2 = quote_char then
        pv_go rest2 true quote_char (current_value ++ [c, c]) values
      else
        pv_go (c2 :: rest2) false ' ' (current_value ++ [c]) values
    else
      pv_go (c2 :: rest2) true quote_char (current_value ++ [c]) values

/-- The raw tokens of `parse_values`, before `clean_value` is applied
(the Value Tokenizer of the spec). -/
def tokenize_values (cs : List Char) : List (List Char) :=
  pv_go cs false ' ' [] []

/-- `clean_value` (`src/parser.rs:172`): trim, and if the value starts and
ends with the same kind of quote, strip the outer pair and unescape doubled
quotes. `none` models the Rust panic: when the trimmed value is a single
quote character, both `starts_with` and `ends_with` hold and the code slices
`val[1..0]`, which panics. -/
def clean_value (val0 : List Char) : Option (List Char) :=
  let val := trimL val0
  if (val.head? = some sq ∧ val.getLast? = some sq) ∨
     (val.head? = some dq ∧ val.getLast? = some dq) then
    if 2 ≤ val.length then
      let inner := (val.drop 1).dropLast
      some (replaceSub [dq, dq] [dq] (replaceSub [sq, sq] [sq] inner))
    else
      none
  else
    some val

/-- `parse_values` (`src/parser.rs:118`): tokenize, then clean every token.
`none` models a panic inside `clean_value`. -/
def parse_values (values_str : String) : Option (List String) :=
  (optMap clean_value (tokenize_values values_str.data)).map (fun l => l.map String.mk)

/-! ## `src/parser.rs`: the replace() rewriter -/

/-- The literal `replace(`. -/
def replLit : List Char := "replace(".data

/-- The literal `replace('`, the fixed prefix of the rewriter regex. -/
def replOpenLit : List Char := replLit ++ [sq]

/-- The unescaping applied to the captured first argument of a `replace(`
call: `\'` becomes `'` and then `\n` becomes a newline
(`src/parser.rs:109-112`). -/
def unescapeCapture (cap : List Char) : List Char :=
  replaceSub [bsl, 'n'] [nl] (replaceSub [bsl, sq] [sq] cap)

/-- The `replace_all` pass of `handle_replace_function` over the lazy regex
`replace\('(.*?)',.*?\)` (dot matching newline).  Leftmost-first semantics:
at each position, a match requires the literal `replace('`, then the capture
runs to the *first* occurrence of `',` (lazy `.*?`), then the call runs to
the *first* `)` after it; scanning resumes after the match.  The fuel
argument (instantiated with the input length) only makes the recursion
structural. -/
def hrfGo : Nat → List Char → List Char
  | _, [] => []
  | 0, s => s
  | fuel + 1, c :: rest =>
    if replOpenLit.isPrefixOf (c :: rest) then
      match splitAtSub [sq, ','] ((c :: rest).drop replOpenLit.length) with
      | some (cap, rest1) =>
        match splitAtSub [')'] rest1 with
        | some (_, rest2) => (sq :: unescapeCapture cap ++ [sq]) ++ hrfGo fuel rest2
        | none => c :: hrfGo fuel rest
      | none => c :: hrfGo fuel rest
    else
      c :: hrfGo fuel rest

/-- `handle_replace_function` (`src/parser.rs:101`): return the payload
unchanged when it contains no `replace(` substring, otherwise rewrite every
`replace('<captured>', ...)` call to `'<captured unescaped>'`. -/
def handle_replace_function (values_str : String) : String :=
  if containsSub replLit values_str.data then
    String.mk (hrfGo values_str.data.length values_str.data)
  else
    values_str

/-! ## `src/parser.rs`: row extraction -/

/-- Processing of one INSERT match (`src/parser.rs:82-85`): rewrite
`replace(` calls in the captured payload, then tokenize and clean it.
`none` models a panic. -/
def process_capture (payload : String) : Option (List String) :=
  parse_values (handle_replace_function payload)

/-- The pattern loop of `extract_insert_values` (`src/parser.rs:77-95`).
Pattern compilation and matching are external (the `regex` crate); the loop
is therefore parameterised by, for each of the three quoting-style patterns
in order, either a compile error or the list of captured payloads.  A
compile error is reported as a warning and skipped; after a pattern is
processed the loop stops as soon as the accumulated row list is non-empty.
`none` models a panic while parsing a payload. -/
def extract_insert_values_go :
    List (Except String (List String)) → List (List String) →
    Option (Except String (List (List String)))
  | [], rows => some (Except.ok rows)
  | Except.error _ :: restPatterns, rows =>
    extract_insert_values_go restPatterns rows
  | Except.ok captures :: restPatterns, rows =>
    match optMap process_capture captures with
    | none => none
    | some newRows =>
      let rows2 := rows ++ newRows
      if rows2 ≠ [] then some (Except.ok rows2)
      else extract_insert_values_go restPatterns rows2

/-- `extract_insert_values` (`src/parser.rs:66`), parameterised by the
per-pattern regex outcomes (see `extract_insert_values_go`). -/
def extract_insert_values (pattern_results : List (Except String (List String))) :
    Option (Except String (List (List String))) :=
  extract_insert_values_go pattern_results []

/-! ## `src/date_filter.rs`: calendar dates

Models of the `chrono` types and functions used by `parse_date_value`:
`NaiveDate` (a proleptic-Gregorian calendar date), strftime-style parsing
(`NaiveDate::parse_from_str` / `NaiveDateTime::parse_from_str`), RFC 3339
parsing, and `DateTime::from_timestamp`. -/

/-- A calendar date (`chrono::NaiveDate`). -/
structure Date where
  year : Int
  month : Nat
  day : Nat
deriving DecidableEq, Repr

/-- `DateFilter` from `src/types.rs`. -/
structure DateFilter where
  column_name : String
  start_date : Date
  end_date : Date
deriving DecidableEq, Repr

/-- Proleptic-Gregorian leap-year test. -/
def isLeap (y : Int) : Bool :=
  y % 4 = 0 ∧ (y % 100 ≠ 0 ∨ y % 400 = 0)

/-- Days in a month of the proleptic-Gregorian calendar. -/
def daysInMonth (y : Int) (m : Nat) : Nat :=
  if m = 1 then 31
  else if m = 2 then (if isLeap y then 29 else 28)
  else if m = 3 then 31
  else if m = 4 then 30
  else if m = 5 then 31
  else if m = 6 then 30
  else if m = 7 then 31
  else if m = 8 then 31
  else if m = 9 then 30
  else if m = 10 then 31
  else if m = 11 then 30
  else 31

/-- `chrono`'s maximal representable year (`MAX_YEAR = i32::MAX >> 13`). -/
def chronoMaxYear : Int := 262143

/-- `chrono`'s minimal representable year (`MIN_YEAR = i32::MIN >> 13`). -/
def chronoMinYear : Int := -262144

/-- `NaiveDate::from_ymd_opt`: a date when year, month and day form a valid
in-range proleptic-Gregorian date, `none` otherwise. -/
def mkDate (y m d : Int) : Option Date :=
  if chronoMinYear ≤ y ∧ y ≤ chronoMaxYear ∧ 1 ≤ m ∧ m ≤ 12 ∧ 1 ≤ d ∧
      d ≤ (daysInMonth y m.toNat : Int) then
    some ⟨y, m.toNat, d.toNat⟩
  else
    none

/-- The `Ord` instance of `NaiveDate`: lexicographic on
(year, month, day). -/
def dateLe (a b : Date) : Bool :=
  a.year < b.year ∨
  (a.year = b.year ∧ (a.month < b.month ∨ (a.month = b.month ∧ a.day ≤ b.day)))

/-! ### strftime-style format parsing -/

/-- One item of a strftime format string as interpreted by `chrono`:
a numeric field, a literal character, whitespace, or `%.f`. -/
inductive FmtItem where
  | year
  | month
  | day
  | hour
  | minute
  | second
  | lit (c : Char)
  | space
  | frac
deriving DecidableEq, Repr

/-- The fields accumulated while parsing (`chrono::format::Parsed`). -/
structure ParsedFields where
  year : Option Int := none
  month : Option Int := none
  day : Option Int := none
  hour : Option Int := none
  minute : Option Int := none
  second : Option Int := none
deriving DecidableEq, Repr

/-- `i64::MAX`, the overflow bound of `chrono`'s digit scanner. -/
def i64Max : Int := 9223372036854775807

/-- `chrono`'s `scan::number(s, 1, width)`: consume at least one and at most
`width` leading digits, greedily, failing on overflow past `i64::MAX`. -/
def scanNumber (width : Nat) (s : List Char) : Option (Int × List Char) :=
  let digits := (s.takeWhile Char.isDigit).take width
  if digits = [] then none
  else
    let v : Nat := digits.foldl (fun acc c => acc * 10 + (c.toNat - 48)) 0
    if (v : Int) ≤ i64Max then some ((v : Int), s.drop digits.length) else none

/-- A numeric format field as parsed by `chrono`: leading whitespace is
skipped; a signed field (only `%Y`) accepts an explicit sign followed by
arbitrarily many digits, otherwise at most `width` digits are taken. -/
def parseNumeric (width : Nat) (signed : Bool) (s : List Char) :
    Option (Int × List Char) :=
  let s := s.dropWhile isWs
  if signed then
    match s with
    | c :: rest =>
      if c = '-' then (scanNumber 19 rest).map (fun p => (-p.1, p.2))
      else if c = '+' then scanNumber 19 rest
      else scanNumber width s
    | [] => none
  else
    scanNumber width s

/-- Run one format item on the current state (parsed fields, remaining
input). -/
def runFmtItem (st : ParsedFields × List Char) (it : FmtItem) :
    Option (ParsedFields × List Char) :=
  match it with
  | FmtItem.year =>
    (parseNumeric 4 true st.2).map (fun p => ({ st.1 with year := some p.1 }, p.2))
  | FmtItem.month =>
    (parseNumeric 2 false st.2).map (fun p => ({ st.1 with month := some p.1 }, p.2))
  | FmtItem.day =>
    (parseNumeric 2 false st.2).map (fun p => ({ st.1 with day := some p.1 }, p.2))
  | FmtItem.hour =>
    (parseNumeric 2 false st.2).map (fun p => ({ st.1 with hour := some p.1 }, p.2))
  | FmtItem.minute =>
    (parseNumeric 2 false st.2).map (fun p => ({ st.1 with minute := some p.1 }, p.2))
  | FmtItem.second =>
    (parseNumeric 2 false st.2).map (fun p => ({ st.1 with second := some p.1 }, p.2))
  | FmtItem.lit c =>
    match st.2 with
    | c2 :: rest => if c2 = c then some (st.1, rest) else none
    | [] => none
  | FmtItem.space => some (st.1, st.2.dropWhile isWs)
  | FmtItem.frac =>
    match st.2 with
    | c :: rest =>
      if c = '.' then
        let digits := rest.takeWhile Char.isDigit
        if digits = [] then none else some (st.1, rest.drop digits.length)
      else some (st.1, st.2)
    | [] => some (st.1, st.2)

/-- Run a whole format on an input string; fails if any item fails or if
input remains afterwards (`chrono`'s `TOO_LONG` check). -/
def runFmt (items : List FmtItem) (s : List Char) : Option ParsedFields :=
  match items.foldlM runFmtItem (({} : ParsedFields), s) with
  | some (p, []) => some p
  | _ => none

/-- `Parsed::to_naive_date`: year, month and day must all be present and
form a valid date. -/
def parsedToDate (p : ParsedFields) : Option Date :=
  match p.year, p.month, p.day with
  | some y, some m, some d => mkDate y m d
  | _, _, _ => none

/-- `Parsed::to_naive_datetime` followed by `.date()`: additionally the
time fields must be present and valid (seconds up to 60 for leap
seconds). -/
def parsedToDateTimeDate (p : ParsedFields) : Option Date :=
  match p.hour, p.minute, p.second with
  | some h, some mi, some se =>
    if 0 ≤ h ∧ h ≤ 23 ∧ 0 ≤ mi ∧ mi ≤ 59 ∧ 0 ≤ se ∧ se ≤ 60 then
      parsedToDate p
    else none
  | _, _, _ => none

/-- `NaiveDateTime::parse_from_str(value, fmt).map(|dt| dt.date())`. -/
def parseDateTimeWith (items : List FmtItem) (s : List Char) : Option Date :=
  (runFmt items s).bind parsedToDateTimeDate

/-- `NaiveDate::parse_from_str(value, fmt)`. -/
def parseDateWith (items : List FmtItem) (s : List Char) : Option Date :=
  (runFmt items s).bind parsedToDate

/-- The format `%Y-%m-%d`. -/
def fmtYmd : List FmtItem :=
  [FmtItem.year, FmtItem.lit '-', FmtItem.month, FmtItem.lit '-', FmtItem.day]

/-- The format `%Y-%m-%d %H:%M:%S`. -/
def fmtYmdHms : List FmtItem :=
  fmtYmd ++ [FmtItem.space, FmtItem.hour, FmtItem.lit ':', FmtItem.minute,
    FmtItem.lit ':', FmtItem.second]

/-- The format `%Y-%m-%dT%H:%M:%S`. -/
def fmtYmdTHms : List FmtItem :=
  fmtYmd ++ [FmtItem.lit 'T', FmtItem.hour, FmtItem.lit ':', FmtItem.minute,
    FmtItem.lit ':', FmtItem.second]

/-- The format `%Y-%m-%d %H:%M:%S%.f`. -/
def fmtYmdHmsF : List FmtItem := fmtYmdHms ++ [FmtItem.frac]

/-- The format `%Y-%m-%dT%H:%M:%S%.f`. -/
def fmtYmdTHmsF : List FmtItem := fmtYmdTHms ++ [FmtItem.frac]

/-- The format `%m/%d/%Y`. -/
def fmtMdy : List FmtItem :=
  [FmtItem.month, FmtItem.lit '/', FmtItem.day, FmtItem.lit '/', FmtItem.year]

/-- The format `%d/%m/%Y`. -/
def fmtDmy : List FmtItem :=
  [FmtItem.day, FmtItem.lit '/', FmtItem.month, FmtItem.lit '/', FmtItem.year]

/-- The first five entries of the `formats` vector of `parse_date_value`
(`src/date_filter.rs:96-104`), i.e. `&formats[..5]`, tried as
`NaiveDateTime`. -/
def datetime_formats : List (List FmtItem) :=
  [fmtYmd, fmtYmdHms, fmtYmdTHms, fmtYmdHmsF, fmtYmdTHmsF]

/-- The whole `formats` vector, tried as `NaiveDate`. -/
def date_formats : List (List FmtItem) :=
  datetime_formats ++ [fmtMdy, fmtDmy]

/-! ### RFC 3339 and epoch timestamps -/

/-- Consume exactly `n` digits and return their value. -/
def takeDigits (n : Nat) (s : List Char) : Option (Int × List Char) :=
  let digits := s.take n
  if digits.length = n ∧ digits.all Char.isDigit then
    some ((digits.foldl (fun acc c => acc * 10 + (c.toNat - 48)) 0 : Nat), s.drop n)
  else none

/-- The time-and-offset tail of an RFC 3339 timestamp:
`HH:MM:SS`, optional `.digits`, then `Z`/`z` or `±HH:MM`; nothing may
follow.  Returns `true` when the tail is well formed and in range. -/
def rfc3339Tail (s : List Char) : Bool :=
  match takeDigits 2 s with
  | none => false
  | some (h, s1) =>
    match s1 with
    | c1 :: s2 =>
      if c1 ≠ ':' then false else
      match takeDigits 2 s2 with
      | none => false
      | some (mi, s3) =>
        match s3 with
        | c2 :: s4 =>
          if c2 ≠ ':' then false else
          match takeDigits 2 s4 with
          | none => false
          | some (se, s5) =>
            let s6 :=
              match s5 with
              | c3 :: rest =>
                if c3 = '.' ∧ (rest.takeWhile Char.isDigit) ≠ [] then
                  some (rest.drop (rest.takeWhile Char.isDigit).length)
                else if c3 = '.' then none
                else some s5
              | [] => some s5
            match s6 with
            | none => false
            | some s7 =>
              let timeOk := h ≤ 23 ∧ mi ≤ 59 ∧ se ≤ 60
              match s7 with
              | [c4] => timeOk ∧ (c4 = 'Z' ∨ c4 = 'z')
              | c4 :: s8 =>
                if c4 = '+' ∨ c4 = '-' then
                  match takeDigits 2 s8 with
                  | none => false
                  | some (oh, s9) =>
                    match s9 with
                    | c5 :: s10 =>
                      if c5 ≠ ':' then false else
                      match takeDigits 2 s10 with
                      | some (om, []) => timeOk ∧ oh ≤ 23 ∧ om ≤ 59
                      | _ => false
                    | [] => false
                else false
              | [] => false
        | [] => false
    | [] => false

/-- `DateTime::<FixedOffset>::parse_from_rfc3339(value).map(|dt|
dt.date_naive())`: on success the naive date is exactly the date written in
the string. -/
def parse_rfc3339 (s : List Char) : Option Date :=
  match takeDigits 4 s with
  | none => none
  | some (y, s1) =>
    match s1 with
    | c1 :: s2 =>
      if c1 ≠ '-' then none else
      match takeDigits 2 s2 with
      | none => none
      | some (m, s3) =>
        match s3 with
        | c2 :: s4 =>
          if c2 ≠ '-' then none else
          match takeDigits 2 s4 with
          | none => none
          | some (d, s5) =>
            match s5 with
            | c3 :: s6 =>
              if (c3 = 'T' ∨ c3 = 't' ∨ c3 = ' ') ∧ rfc3339Tail s6 then
                mkDate y m d
              else none
            | [] => none
        | [] => none
    | [] => none

/-- Models Rust `str::parse::<i64>()`: optional sign, at least one digit,
nothing else, within the `i64` range. -/
def parse_i64 (s : List Char) : Option Int :=
  let digitsVal : List Char → Option Int := fun ds =>
    if ds ≠ [] ∧ ds.all Char.isDigit then
      some ((ds.foldl (fun acc c => acc * 10 + (c.toNat - 48)) 0 : Nat) : Int)
    else none
  match s with
  | c :: rest =>
    if c = '+' then
      (digitsVal rest).bind (fun v => if v ≤ i64Max then some v else none)
    else if c = '-' then
      (digitsVal rest).bind (fun v => if v ≤ i64Max + 1 then some (-v) else none)
    else
      (digitsVal s).bind (fun v => if v ≤ i64Max then some v else none)
  | [] => none

/-- Civil-from-days: the proleptic-Gregorian date `z` days after
1970-01-01 (Howard Hinnant's algorithm, as used by `chrono`'s internal
epoch conversion). -/
def civilFromDays (z0 : Int) : Date :=
  let z := z0 + 719468
  let era : Int := Int.fdiv z 146097
  let doe : Nat := (z - era * 146097).toNat
  let yoe : Nat := (doe - doe / 1460 + doe / 36524 - doe / 146096) / 365
  let y : Int := (yoe : Int) + era * 400
  let doy : Nat := doe - (365 * yoe + yoe / 4 - yoe / 100)
  let mp : Nat := (5 * doy + 2) / 153
  let d : Nat := doy - (153 * mp + 2) / 5 + 1
  let m : Nat := if mp < 10 then mp + 3 else mp - 9
  ⟨if m ≤ 2 then y + 1 else y, m, d⟩

/-- `chrono::DateTime::from_timestamp(secs, 0).map(|dt| dt.date_naive())`:
floor-divide the epoch seconds into days (UTC) and convert; `none` when the
result falls outside `chrono`'s representable range. -/
def fromTimestamp (secs : Int) : Option Date :=
  let d := civilFromDays (Int.fdiv secs 86400)
  if chronoMinYear ≤ d.year ∧ d.year ≤ chronoMaxYear then some d else none

/-! ### `parse_date_value` and `apply_date_filter` -/

/-- `parse_date_value` (`src/date_filter.rs:89`): RFC 3339 first, then the
first five formats as date-times, then all seven formats as dates, then the
integer epoch fallback (milliseconds first, i.e. the value truncated by
1000, then raw seconds). -/
def parse_date_value (value : String) : Option Date :=
  match parse_rfc3339 value.data with
  | some d => some d
  | none =>
  match firstSome (fun items => parseDateTimeWith items value.data) datetime_formats with
  | some d => some d
  | none =>
  match firstSome (fun items => parseDateWith items value.data) date_formats with
  | some d => some d
  | none =>
  match parse_i64 value.data with
  | none => none
  | some timestamp =>
    match fromTimestamp (Int.tdiv timestamp 1000) with
    | some d => some d
    | none =>
      match fromTimestamp timestamp with
      | some d => some d
      | none => none

/-- The error message of `apply_date_filter` for a missing column. -/
def columnNotFoundMsg (c : String) : String :=
  "Column " ++ String.mk [sq] ++ c ++ String.mk [sq] ++ " not found in table headers"

/-- `apply_date_filter` (`src/date_filter.rs:53`): locate the filter column
in the headers (error if absent), then keep exactly the rows that have a
parseable date at that position within the inclusive range.  `row.get? idx
= none` models the `column_index >= row.len()` bounds check. -/
def apply_date_filter (headers : List String) (rows : List (List String))
    (filter : DateFilter) : Except String (List (List String)) :=
  match headers.findIdx? (fun h => h == filter.column_name) with
  | none => Except.error (columnNotFoundMsg filter.column_name)
  | some column_index =>
    Except.ok (rows.filter (fun row =>
      match row.get? column_index with
      | none => false
      | some date_value =>
        match parse_date_value date_value with
        | some date => dateLe filter.start_date date && dateLe date filter.end_date
        | none => false))

/-! ## `src/main.rs`: the per-table driver loop

The loop of `main` (`src/main.rs:66-103`): for every table, extract its
rows, optionally apply the date filter (an error here is reported and the
table is skipped, `main.rs:72-78`), skip tables with no remaining rows, and
hand the rest to the CSV sink.  The sink (`write_csv`) is an external
collaborator and is modelled as always succeeding, producing the
`(file name, headers, rows)` triple.  As in `extract_insert_values`, the
per-table regex outcomes are a parameter. -/

/-- One iteration of the per-table loop: `none` models a panic, `some none`
a skipped table, `some (some out)` an emitted CSV file. -/
def process_table (pattern_results : Table → List (Except String (List String)))
    (date_filter : Option DateFilter) (t : Table) :
    Option (Option (String × List String × List (List String))) :=
  match extract_insert_values (pattern_results t) with
  | none => none
  | some (Except.error _) => some none
  | some (Except.ok rows) =>
    let filtered_result : Except String (List (List String)) :=
      match date_filter with
      | some filter => apply_date_filter t.columns rows filter
      | none => Except.ok rows
    match filtered_result with
    | Except.error _ => some none
    | Except.ok filtered_rows =>
      if filtered_rows ≠ [] then
        some (some (t.name.toLower ++ ".csv", t.columns, filtered_rows))
      else
        some none

/-- The whole loop: every table is processed independently and the emitted
CSV files are collected (`filter_map`). -/
def run_tables (pattern_results : Table → List (Except String (List String)))
    (date_filter : Option DateFilter) (tables : List Table) :
    Option (List (String × List String × List (List String))) :=
  (optMap (process_table pattern_results date_filter) tables).map
    (fun l => l.filterMap id)

/-! ## Spec-side characterizations

Definitions that follow the words of the specification rather than the
code, used to state refinement-style claims. -/

/-- The captured payloads of the first quoting-style pattern that compiled
and yielded at least one match, in pattern order; `[]` when no pattern
matches (the spec's description of the Row Extractor's shape selection). -/
def first_shape_matches : List (Except String (List String)) → List String
  | [] => []
  | Except.error _ :: restPatterns => first_shape_matches restPatterns
  | Except.ok captures :: restPatterns =>
    if captures ≠ [] then captures else first_shape_matches restPatterns

/-! ## Helper lemmas -/

/-- `optMap` preserves length. -/
theorem optMap_length {α β : Type} {f : α → Option β} :
    ∀ {l : List α} {l2 : List β}, optMap f l = some l2 → l2.length = l.length := by
  intro l
  induction l with
  | nil => intro l2 h; simp [optMap] at h; simp [← h]
  | cons a rest ih =>
    intro l2 h
    simp only [optMap] at h
    cases hfa : f a with
    | none => rw [hfa] at h; exact absurd h (by simp)
    | some b =>
      rw [hfa] at h
      cases hrest : optMap f rest with
      | none => rw [hrest] at h; exact absurd h (by simp)
      | some bs =>
        rw [hrest] at h
        simp at h
        simp [← h, ih hrest]

/-- `optMap` over an appended list. -/
theorem optMap_append {α β : Type} {f : α → Option β} :
    ∀ (l1 l2 : List α), optMap f (l1 ++ l2) =
      (optMap f l1).bind (fun b1 => (optMap f l2).map (fun b2 => b1 ++ b2)) := by
  intro l1 l2
  induction l1 with
  | nil =>
    simp only [List.nil_append, optMap, Option.some_bind]
    cases optMap f l2 <;> simp
  | cons a rest ih =>
    simp only [List.cons_append, optMap, List.append_eq, ih]
    cases f a <;> cases optMap f rest <;> cases optMap f l2 <;> simp

/-- The accumulator of `extract_insert_values_go`, started empty, yields
exactly the processed captures of the first shape with at least one
match. -/
theorem extract_go_spec (pattern_results : List (Except String (List String))) :
    extract_insert_values_go pattern_results [] =
      Option.map Except.ok (optMap process_capture (first_shape_matches pattern_results)) := by
  induction pattern_results with
  | nil => rfl
  | cons r rest ih =>
    cases r with
    | error e =>
      simpa [extract_insert_values_go, first_shape_matches] using ih
    | ok captures =>
      cases captures with
      | nil =>
        simpa [extract_insert_values_go, first_shape_matches, optMap] using ih
      | cons c cs =>
        simp only [extract_insert_values_go, first_shape_matches, ne_eq,
          reduceCtorEq, not_false_eq_true, if_true, List.nil_append]
        cases h : optMap process_capture (c :: cs) with
        | none => rfl
        | some newRows =>
          have hlen := optMap_length h
          have hne : newRows ≠ [] := by
            intro hn
            rw [hn] at hlen
            simp at hlen
          simp [hne]

/-! ## Claims about `src/parser.rs` -/

/-- The payload `'a,b', 'c', 3` of the tokenizer round-trip example. -/
def c2Input : List Char := [sq, 'a', ',', 'b', sq, ',', ' ', sq, 'c', sq, ',', ' ', '3']

/-- Claim C2: the Value Tokenizer splits only on commas outside an open
quote.  Inside quoted mode (opened by a single or double quote) a comma is
appended to the current value and never ends it, and a doubled occurrence
of the active quote character is copied without leaving quoted mode; in
particular tokenizing `'a,b', 'c', 3` yields exactly the raw tokens
`'a,b'`, `'c'`, `3`. -/
theorem parse_values_quote_invariant :
    (∀ (q : Char), (q = sq ∨ q = dq) → ∀ rest current values,
      pv_go (',' :: rest) true q current values =
        pv_go rest true q (current ++ [',']) values) ∧
    (∀ (q : Char) rest2 current values,
      pv_go (q :: q :: rest2) true q current values =
        pv_go rest2 true q (current ++ [q, q]) values) ∧
    tokenize_values c2Input = [[sq, 'a', ',', 'b', sq], [sq, 'c', sq], ['3']] := by
  refine ⟨?_, ?_, by decide⟩
  · intro q hq rest current values
    have hne : ¬ (',' = q) := by
      rcases hq with h | h <;> subst h <;> decide
    cases rest with
    | nil => simp [pv_go, hne]
    | cons c2 rest2 => simp [pv_go, hne]
  · intro q rest2 current values
    simp [pv_go]

/-- Witness for C2: a comma scanned in quoted mode is appended, not
emitted. -/
theorem parse_values_quote_invariant_witness :
    pv_go [','] true sq [] [] = pv_go [] true sq [','] [] :=
  parse_values_quote_invariant.1 sq (Or.inl rfl) [] [] []

/-- Claim C3: every Table produced by the Schema Extractor has a non-empty
column list; a CREATE TABLE match whose body yields zero valid column names
is discarded entirely. -/
theorem parse_sql_file_columns_nonempty
    (create_table_matches : List (String × String)) (t : Table)
    (ht : t ∈ parse_sql_file create_table_matches) :
    t.columns ≠ [] := by
  unfold parse_sql_file at ht
  rw [List.mem_filterMap] at ht
  obtain ⟨m, _, hm⟩ := ht
  by_cases hc : parse_table_columns m.2 = []
  · simp [hc] at hm
  · rw [if_pos hc] at hm
    cases hm
    simpa using hc

/-- Witness for C3: a one-table dump produces the table `users` with the
non-empty column list `[id, name]`. -/
theorem parse_sql_file_columns_nonempty_witness :
    (Table.mk "users" ["id", "name"]).columns ≠ [] :=
  parse_sql_file_columns_nonempty [("users", "id TEXT, name TEXT")]
    (Table.mk "users" ["id", "name"]) (by decide)

/-- Claim C4: the Row Extractor returns exactly the rows obtained from the
first quoting-style pattern (in the fixed pattern order) that yields at
least one match; matches of later patterns are never merged in. -/
theorem extract_insert_values_first_shape
    (pattern_results : List (Except String (List String))) :
    extract_insert_values pattern_results =
      Option.map Except.ok (optMap process_capture (first_shape_matches pattern_results)) :=
  extract_go_spec pattern_results

/-- The payload `replace('replace(\'a\',b)',c)`, on which the
Replace-Function Rewriter is not idempotent. -/
def c5Payload : String :=
  String.mk (replLit ++ [sq] ++ replLit ++
    [bsl, sq, 'a', bsl, sq, ',', 'b', ')', sq, ',', 'c', ')'])

/-- Counterexample to claim C5: the Replace-Function Rewriter is not an
idempotent text transform.  On the payload `replace('replace(\'a\',b)',c)`
one application yields `'replace('a\'',c)` (the rewritten text again
contains `replace(`), and a second application rewrites it further to
`''a''`. -/
theorem handle_replace_function_not_idempotent :
    handle_replace_function (handle_replace_function c5Payload) ≠
      handle_replace_function c5Payload := by decide

/-- The no-`replace(` short circuit of the rewriter
(`src/parser.rs:102-104`). -/
theorem handle_replace_function_of_not_contains (s : String)
    (h : containsSub replLit s.data = false) : handle_replace_function s = s := by
  unfold handle_replace_function
  rw [h]
  simp

/-- Claim C5 (amended): a payload containing no `replace(` substring is
returned unchanged, and the rewriter is idempotent on every payload whose
*rewritten* form contains no `replace(` substring.  (Rewriting can
re-expose a `replace(` occurrence — e.g. from inside a captured argument —
and a second application may then rewrite further, so unrestricted
idempotence fails.) -/
theorem handle_replace_function_no_op (s : String) :
    (containsSub replLit s.data = false → handle_replace_function s = s) ∧
    (containsSub replLit (handle_replace_function s).data = false →
      handle_replace_function (handle_replace_function s) = handle_replace_function s) := by
  exact ⟨handle_replace_function_of_not_contains s,
    handle_replace_function_of_not_contains (handle_replace_function s)⟩

/-- Witness for C5 (amended): the payload `1, 2` contains no `replace(`
and passes through the rewriter unchanged, also twice. -/
theorem handle_replace_function_no_op_witness :
    handle_replace_function "1, 2" = "1, 2" ∧
    handle_replace_function (handle_replace_function "1, 2") =
      handle_replace_function "1, 2" :=
  ⟨(handle_replace_function_no_op "1, 2").1 (by decide),
   (handle_replace_function_no_op "1, 2").2 (by decide)⟩

/-- Counterexample to claim C6: an invalid internal pattern is *not* a hard
error surfaced to the caller.  With a compile-error outcome for the (only)
pattern, `extract_insert_values` still returns a row list (`Ok []`, the
error having been downgraded to an `eprintln!` warning), and no input makes
it return an error. -/
theorem extract_insert_values_invalid_pattern_counterexample :
    extract_insert_values [Except.error "bad"] = some (Except.ok []) ∧
    ∀ e, extract_insert_values [Except.error "bad"] ≠ some (Except.error e) := by
  constructor
  · rfl
  · intro e h
    rw [show extract_insert_values [Except.error "bad"] =
        some (Except.ok ([] : List (List String))) from rfl] at h
    simp at h

/-- Claim C6 (amended): an INSERT statement matching no pattern produces no
error, and a pattern that fails to compile is reported as a warning and
skipped rather than surfaced: `extract_insert_values` never returns an
error value to its caller. -/
theorem extract_insert_values_never_errors :
    (∀ e restPatterns, extract_insert_values (Except.error e :: restPatterns) =
      extract_insert_values restPatterns) ∧
    (∀ pattern_results r, extract_insert_values pattern_results = some r →
      ∃ rows, r = Except.ok rows) := by
  constructor
  · intro e restPatterns
    rfl
  · intro pattern_results r h
    unfold extract_insert_values at h
    rw [extract_go_spec] at h
    cases hm : optMap process_capture (first_shape_matches pattern_results) with
    | none => rw [hm] at h; simp at h
    | some rows =>
      rw [hm] at h
      simp at h
      exact ⟨rows, h.symm⟩

/-- Witness for C6 (amended): a compile-error first pattern is skipped, and
the returned value is an `Ok` row list. -/
theorem extract_insert_values_never_errors_witness :
    extract_insert_values [Except.error "bad", Except.ok ["1, 2"]] =
      extract_insert_values [Except.ok ["1, 2"]] ∧
    ∃ rows, (Except.ok ([] : List (List String)) : Except String (List (List String))) =
      Except.ok rows :=
  ⟨extract_insert_values_never_errors.1 "bad" [Except.ok ["1, 2"]],
   extract_insert_values_never_errors.2 [] (Except.ok []) rfl⟩

/-- Claim C10: the Value Normalizer is *not* total — on a value consisting
of a single quote character the `starts_with`/`ends_with` test passes and
the code slices `val[1..0]`, a panic (modelled as `none`); the panic
propagates through `parse_values`. -/
theorem clean_value_single_quote_panic :
    clean_value [sq] = none ∧ clean_value [dq] = none ∧
    parse_values (String.mk [sq]) = none :=
  ⟨rfl, rfl, rfl⟩

/-! ## Claims about `src/date_filter.rs` and the driver loop -/

/-- Claim C1: when the filter column occurs in the headers, the Date Range
Filter succeeds and returns exactly those rows that have a value at the
column's position whose recognized date lies within the inclusive
`[start_date, end_date]` range; rows with too few values and rows with
unrecognizable date values are excluded without failing the call. -/
theorem apply_date_filter_date_range (headers : List String)
    (rows : List (List String)) (filter : DateFilter)
    (hmem : filter.column_name ∈ headers) :
    ∃ column_index out,
      headers.findIdx? (fun h => h == filter.column_name) = some column_index ∧
      apply_date_filter headers rows filter = Except.ok out ∧
      ∀ row, row ∈ out ↔ row ∈ rows ∧
        ∃ v, row.get? column_index = some v ∧
        ∃ d, parse_date_value v = some d ∧
          dateLe filter.start_date d = true ∧ dateLe d filter.end_date = true := by
  have hne : headers.findIdx? (fun h => h == filter.column_name) ≠ none := by
    rw [Ne, List.findIdx?_eq_none_iff]
    intro hall
    have := hall filter.column_name hmem
    simp at this
  obtain ⟨column_index, hidx⟩ := Option.ne_none_iff_exists'.mp hne
  refine ⟨column_index,
    rows.filter (fun row =>
      match row.get? column_index with
      | none => false
      | some date_value =>
        match parse_date_value date_value with
        | some date => dateLe filter.start_date date && dateLe date filter.end_date
        | none => false),
    hidx, ?_, ?_⟩
  · unfold apply_date_filter
    rw [hidx]
  · intro row
    rw [List.mem_filter]
    refine and_congr Iff.rfl ?_
    cases hv : row.get? column_index with
    | none => simp [hv]
    | some v =>
      cases hd : parse_date_value v with
      | none => simp [hv, hd]
      | some d => simp [hv, hd, Bool.and_eq_true]

/-- Witness for C1, the example of the claim: filtering
`[[1, 2024-01-10], [2, 2024-02-20]]` on `createdAt` over
January 2024 returns exactly the first row. -/
theorem apply_date_filter_date_range_witness :
    apply_date_filter ["id", "createdAt"]
        [["1", "2024-01-10"], ["2", "2024-02-20"]]
        ⟨"createdAt", ⟨2024, 1, 1⟩, ⟨2024, 1, 31⟩⟩ =
      Except.ok [["1", "2024-01-10"]] ∧
    (∃ column_index out,
      (["id", "createdAt"] : List String).findIdx? (fun h => h == "createdAt") =
        some column_index ∧
      apply_date_filter ["id", "createdAt"]
          [["1", "2024-01-10"], ["2", "2024-02-20"]]
          ⟨"createdAt", ⟨2024, 1, 1⟩, ⟨2024, 1, 31⟩⟩ = Except.ok out ∧
      ∀ row, row ∈ out ↔
        row ∈ [["1", "2024-01-10"], ["2", "2024-02-20"]] ∧
        ∃ v, row.get? column_index = some v ∧
        ∃ d, parse_date_value v = some d ∧
          dateLe ⟨2024, 1, 1⟩ d = true ∧ dateLe d ⟨2024, 1, 31⟩ = true) :=
  ⟨rfl, apply_date_filter_date_range ["id", "createdAt"]
    [["1", "2024-01-10"], ["2", "2024-02-20"]]
    ⟨"createdAt", ⟨2024, 1, 1⟩, ⟨2024, 1, 31⟩⟩ (by decide)⟩

/-- Claim C7: an input on which all earlier recognition strategies fail
(RFC 3339, the five date-time formats, and the first five date-only
formats) and which parses under both slash-delimited formats is resolved by
the format tried first, `%m/%d/%Y`. -/
theorem parse_date_value_slash_priority (value : String) (d d2 : Date)
    (h0 : parse_rfc3339 value.data = none)
    (hdt0 : parseDateTimeWith fmtYmd value.data = none)
    (hdt1 : parseDateTimeWith fmtYmdHms value.data = none)
    (hdt2 : parseDateTimeWith fmtYmdTHms value.data = none)
    (hdt3 : parseDateTimeWith fmtYmdHmsF value.data = none)
    (hdt4 : parseDateTimeWith fmtYmdTHmsF value.data = none)
    (hd0 : parseDateWith fmtYmd value.data = none)
    (hd1 : parseDateWith fmtYmdHms value.data = none)
    (hd2 : parseDateWith fmtYmdTHms value.data = none)
    (hd3 : parseDateWith fmtYmdHmsF value.data = none)
    (hd4 : parseDateWith fmtYmdTHmsF value.data = none)
    (hmdy : parseDateWith fmtMdy value.data = some d)
    (_hdmy : parseDateWith fmtDmy value.data = some d2) :
    parse_date_value value = some d := by
  simp [parse_date_value, datetime_formats, date_formats, firstSome,
    h0, hdt0, hdt1, hdt2, hdt3, hdt4, hd0, hd1, hd2, hd3, hd4, hmdy]

/-- Witness for C7: `03/04/2024` is valid under both slash formats (March 4
vs April 3) and is recognized as March 4, 2024. -/
theorem parse_date_value_slash_priority_witness :
    parse_date_value "03/04/2024" = some ⟨2024, 3, 4⟩ :=
  parse_date_value_slash_priority "03/04/2024" ⟨2024, 3, 4⟩ ⟨2024, 4, 3⟩
    (by decide) (by decide) (by decide) (by decide) (by decide) (by decide)
    (by decide) (by decide) (by decide) (by decide) (by decide) (by decide)
    (by decide)

/-- Claim C8: for a string that fails every textual format but parses as a
signed 64-bit integer `t`, the recognizer first converts `t / 1000`
(truncating division, i.e. assuming milliseconds) as epoch seconds and
returns that date when the conversion is valid; only when it yields no
valid date does it retry `t` itself as epoch seconds; when both conversions
fail, recognition fails. -/
theorem parse_date_value_epoch_fallback (value : String) (t : Int)
    (h0 : parse_rfc3339 value.data = none)
    (h1 : firstSome (fun items => parseDateTimeWith items value.data)
      datetime_formats = none)
    (h2 : firstSome (fun items => parseDateWith items value.data)
      date_formats = none)
    (ht : parse_i64 value.data = some t) :
    (∀ d, fromTimestamp (Int.tdiv t 1000) = some d →
      parse_date_value value = some d) ∧
    (fromTimestamp (Int.tdiv t 1000) = none →
      ∀ d, fromTimestamp t = some d → parse_date_value value = some d) ∧
    (fromTimestamp (Int.tdiv t 1000) = none → fromTimestamp t = none →
      parse_date_value value = none) := by
  refine ⟨?_, ?_, ?_⟩
  · intro d hms
    simp [parse_date_value, h0, h1, h2, ht, hms]
  · intro hms d hsec
    simp [parse_date_value, h0, h1, h2, ht, hms, hsec]
  · intro hms hsec
    simp [parse_date_value, h0, h1, h2, ht, hms, hsec]

/-- Witness for C8: `1704067200000` (milliseconds) is recognized as
2024-01-01 via the divide-by-1000 conversion. -/
theorem parse_date_value_epoch_fallback_witness :
    parse_date_value "1704067200000" = some ⟨2024, 1, 1⟩ :=
  (parse_date_value_epoch_fallback "1704067200000" 1704067200000
    (by decide) (by decide) (by decide) (by decide)).1
    ⟨2024, 1, 1⟩ (by decide)

/-- Claim C9: when the filter column does not occur in a table's headers,
the Date Range Filter fails with a column-not-found error (so that table
yields no rows), and in the driver loop this failure only suppresses that
table's output: the remaining tables are processed exactly as if the failing
table were absent. -/
theorem apply_date_filter_missing_column (headers : List String)
    (rows : List (List String)) (filter : DateFilter)
    (hmem : filter.column_name ∉ headers) :
    apply_date_filter headers rows filter =
      Except.error (columnNotFoundMsg filter.column_name) ∧
    ∀ (pattern_results : Table → List (Except String (List String)))
      (t : Table) (rows0 : List (List String)) (ts1 ts2 : List Table),
      t.columns = headers →
      extract_insert_values (pattern_results t) = some (Except.ok rows0) →
      run_tables pattern_results (some filter) (ts1 ++ t :: ts2) =
        run_tables pattern_results (some filter) (ts1 ++ ts2) := by
  have hnone : headers.findIdx? (fun h => h == filter.column_name) = none := by
    rw [List.findIdx?_eq_none_iff]
    intro x hx
    rw [beq_eq_false_iff_ne]
    intro he
    exact hmem (he ▸ hx)
  have herror : apply_date_filter headers rows filter =
      Except.error (columnNotFoundMsg filter.column_name) := by
    unfold apply_date_filter
    rw [hnone]
  refine ⟨herror, ?_⟩
  intro pattern_results t rows0 ts1 ts2 hcols hext
  have herror0 : apply_date_filter t.columns rows0 filter =
      Except.error (columnNotFoundMsg filter.column_name) := by
    unfold apply_date_filter
    rw [hcols, hnone]
  have hproc : process_table pattern_results (some filter) t = some none := by
    unfold process_table
    rw [hext]
    simp [herror0]
  unfold run_tables
  rw [optMap_append, optMap_append]
  rw [show optMap (process_table pattern_results (some filter)) (t :: ts2) =
      (optMap (process_table pattern_results (some filter)) ts2).map
        (fun bs => none :: bs) from by
    simp [optMap, hproc]]
  cases optMap (process_table pattern_results (some filter)) ts1 <;>
    cases optMap (process_table pattern_results (some filter)) ts2 <;>
    simp

/-- Witness for C9: filtering the header list `[id]` on `createdAt` fails
with the column-not-found error, and a table with that header contributes
nothing to the driver loop. -/
theorem apply_date_filter_missing_column_witness :
    apply_date_filter ["id"] [] ⟨"createdAt", ⟨2024, 1, 1⟩, ⟨2024, 12, 31⟩⟩ =
      Except.error (columnNotFoundMsg "createdAt") ∧
    run_tables (fun _ => []) (some ⟨"createdAt", ⟨2024, 1, 1⟩, ⟨2024, 12, 31⟩⟩)
        [⟨"t", ["id"]⟩] =
      run_tables (fun _ => []) (some ⟨"createdAt", ⟨2024, 1, 1⟩, ⟨2024, 12, 31⟩⟩)
        [] :=
  ⟨(apply_date_filter_missing_column ["id"] []
      ⟨"createdAt", ⟨2024, 1, 1⟩, ⟨2024, 12, 31⟩⟩ (by decide)).1,
   (apply_date_filter_missing_column ["id"] []
      ⟨"createdAt", ⟨2024, 1, 1⟩, ⟨2024, 12, 31⟩⟩ (by decide)).2
     (fun _ => []) ⟨"t", ["id"]⟩ [] [] [] rfl rfl⟩

end ParsleyCsv

